import Mathlib

/-!
Shallow embedding of `src/project_logic.py` (class `ProjectLogic`), covering
`get_filtered_event_types` and `get_network_event_counts`, together with proofs
about the embedded definitions.

External collaborators (the `meraki` dashboard API, `MerakiAPIWrapper`, the
`datetime` library) are modelled as explicit parameters; a raised Python
exception from a remote call is an `Except.error`.
-/

set_option linter.unusedVariables false

namespace EventLog

/-- Association-list lookup, modelling Python `dict` access (`d.get(k)`,
`k in d`, `d[k]`); Python dict keys are unique, the model looks up the first
binding. -/
def alGet {α : Type} (k : String) : List (String × α) → Option α
  | [] => none
  | (k', v) :: rest => if k' = k then some v else alGet k rest

/-- Association-list update, modelling Python `d[k] = v`: replaces the value at
an existing key in place, otherwise appends a new binding (Python dicts keep
insertion order, and keep the original position on reassignment). -/
def alSet {α : Type} (k : String) (v : α) : List (String × α) → List (String × α)
  | [] => [(k, v)]
  | (k', v') :: rest => if k' = k then (k', v) :: rest else (k', v') :: alSet k v rest

/-- A raw event record out of `response_data['events']`
(`project_logic.py:204`): `record o t` is a dict whose `'occurredAt'` /
`'type'` entries are `o` / `t` (`none` = key missing); `nonDict` is a list
element for which `isinstance(event, dict)` fails (`project_logic.py:246`). -/
inductive RawEvent
  | record (occurredAt : Option String) (type : Option String)
  | nonDict
deriving DecidableEq

/-- The response of one `getNetworkEvents` call (`project_logic.py:194-212`):
`events` is `response_data.get('events', [])`, `pageStartAt` is
`response_data.get('pageStartAt')`. -/
structure Page where
  events : List RawEvent
  pageStartAt : Option String
deriving DecidableEq

/-- One record of a network as returned by the catalog accessor: `id` is
`net.get('id')` (`none` = key missing), `name` is `net.get('name', 'Unknown')`
and is only ever logged. -/
structure Network where
  id : Option String
  name : String
deriving DecidableEq

/-- One record of `getNetworkEventsEventTypes` (`project_logic.py:107-111`);
each field is the corresponding `event.get(...)` (`none` = key missing). -/
structure EvTypeRec where
  category : Option String
  type : Option String
  description : Option String
deriving DecidableEq

/-- The `datetime` collaborator, abstracted over the timestamp type `DT`:
`fromiso s` models `datetime.fromisoformat(s.replace('Z', '+00:00'))`, with
`none` standing for the raised `ValueError` (or the `AttributeError` of a
non-string value); `dayStr` models `dt.strftime('%Y-%m-%d')`; `le` models
`dt1 <= dt2`; `subDays now d` models `now - timedelta(days=d)`. The in-Python
round trip of `project_logic.py:173-175` (`isoformat` then `fromisoformat` on
the window bound) never fails, so the window bound is carried directly as the
`DT` value `subDays now days`. -/
structure DTLib (DT : Type) where
  fromiso : String → Option DT
  dayStr : DT → String
  le : DT → DT → Bool
  subDays : DT → Int → DT

/-- The external collaborators of one `ProjectLogic` instance:
`dashboardAvailable` is whether `self._api_utils.get_dashboard()` returns an
API object; `transport pt` is the raw outcome of the network-catalog fetch for
`filter_product_type=[pt]`; `eventTypes nid` models
`dashboard.networks.getNetworkEventsEventTypes(nid)`; `api nid cursor` models
`dashboard.networks.getNetworkEvents(nid, ..., endingBefore=cursor,
perPage=1000)` — the parameters that are fixed across all calls of one
invocation (product type, selected event types, `occurredAfter`) are absorbed
into the function; `now` models `datetime.now()`. An `Except.error` is a
raised `meraki.APIError` or other `Exception`. -/
structure Env (DT : Type) where
  dashboardAvailable : Bool
  transport : String → Except String (List Network)
  eventTypes : String → Except String (List EvTypeRec)
  api : String → Option String → Except String Page
  now : DT

/-- Modelled from the spec: `MerakiAPIWrapper.list_networks` is not part of the
source tree (it lives in `meraki_tools.meraki_api_utils`); spec §4.1 fixes its
contract — "Fails soft: on any transport error, logs and returns an empty
sequence rather than propagating." -/
def list_networks (transport : String → Except String (List Network)) (pt : String) :
    List Network :=
  match transport pt with
  | .ok ns => ns
  | .error _ => []

/-- Models `network_id = net.get('id')` followed by the falsiness guard
`if not network_id: continue` (`project_logic.py:181-185`): both a missing id
and an empty-string id make the network be skipped. -/
def getId (n : Network) : Option String :=
  match n.id with
  | some s => if s = "" then none else some s
  | none => none

/-! ### The event fold (`project_logic.py:244-268`) -/

/-- The `(day, event_type)` cell a raw event is counted under, or `none` when
the event is skipped: not a dict, missing `'occurredAt'` or `'type'`, or the
timestamp does not parse (the inner `try` of `project_logic.py:253-268`
catches and skips). -/
def eventCell {DT : Type} (L : DTLib DT) : RawEvent → Option (String × String)
  | .record (some o) (some t) => (L.fromiso o).map (fun dt => (L.dayStr dt, t))
  | _ => none

abbrev TyMap := List (String × Nat)
abbrev DayMap := List (String × TyMap)
abbrev Table := List (String × DayMap)

/-- One iteration of the fold over a network's events on its
`{date_str: {event_type: count}}` dict: create the day dict on first use,
`setdefault(event_type, 0)`, then `+= 1` (`project_logic.py:258-262`). -/
def foldStep {DT : Type} (L : DTLib DT) (dm : DayMap) (e : RawEvent) : DayMap :=
  match eventCell L e with
  | none => dm
  | some (d, t) =>
    let tm := (alGet d dm).getD []
    alSet d (alSet t ((alGet t tm).getD 0 + 1) tm) dm

/-- The fold of `project_logic.py:244-268`: a network's collected raw events
are folded into its day map, starting from the fresh `{}` installed by
`network_event_counts[network_id] = {}`. -/
def foldNetworkEvents {DT : Type} (L : DTLib DT) (events : List RawEvent) : DayMap :=
  events.foldl (foldStep L) []

/-- Lookup of the count cell `dm[d][t]` in a per-network day map. -/
def cellOpt (dm : DayMap) (d t : String) : Option Nat :=
  (alGet d dm).bind (alGet t)

/-- Whether the fold counts raw event `e` under cell `(d, t)`: the event is a
dict with both `'occurredAt'` and `'type'`, its timestamp parses, it truncates
to calendar day `d`, and its type is `t`. -/
def countsAt {DT : Type} (L : DTLib DT) (d t : String) (e : RawEvent) : Bool :=
  eventCell L e == some (d, t)

/-! ### The pagination loop (`project_logic.py:192-238`) -/

/-- The branch on which the `while True:` pagination loop broke. -/
inductive StopReason
  /-- `except meraki.APIError` / `except Exception` around the iteration
  (`project_logic.py:233-238`). -/
  | apiError
  /-- `if not current_page_events: break` (`project_logic.py:206-208`). -/
  | exhausted
  /-- `fromisoformat(page_start_at_str...)` raised; caught by the generic
  `except Exception` and the loop breaks (`project_logic.py:214, 236-238`). -/
  | badPageStart
  /-- `page_start_at_dt <= occurred_after_dt` (`project_logic.py:216-218`). -/
  | boundary
  /-- `pageStartAt` missing and `len(current_page_events) < 1000`: assumed
  last page (`project_logic.py:221-223`). -/
  | shortLastPage
  /-- `pageStartAt` missing on a full page: a warning is logged and the loop
  breaks to prevent an infinite loop (`project_logic.py:227-228`). -/
  | fullPageNoStart
deriving DecidableEq

/-- The `while True:` pagination loop of `project_logic.py:192-238` for one
network. `api` is the environment's `getNetworkEvents` specialised to the
network; `cursor` is `ending_before_timestamp`; `acc` is
`all_network_events_for_current_net`. Returns the collected events, the number
of `getNetworkEvents` calls made, and the branch on which the loop broke;
`none` when `fuel` iterations were not enough to reach a `break` (the Python
loop itself can spin for as long as the API keeps producing fresh in-window
pages). The page's events are appended *before* the `pageStartAt` handling, so
every stop except `apiError` keeps the current page. -/
def paginateLoop {DT : Type} (api : Option String → Except String Page) (L : DTLib DT)
    (occAfter : DT) : Nat → Option String → List RawEvent →
    Option (List RawEvent × Nat × StopReason)
  | 0, _, _ => none
  | fuel + 1, cursor, acc =>
    match api cursor with
    | .error _ => some (acc, 1, .apiError)
    | .ok page =>
      if page.events.isEmpty then some (acc, 1, .exhausted)
      else
        let acc2 := acc ++ page.events
        match page.pageStartAt with
        | some s =>
          match L.fromiso s with
          | none => some (acc2, 1, .badPageStart)
          | some dt =>
            if L.le dt occAfter then some (acc2, 1, .boundary)
            else
              match paginateLoop api L occAfter fuel (some s) acc2 with
              | none => none
              | some (evs, n, r) => some (evs, n + 1, r)
        | none =>
          if page.events.length < 1000 then some (acc2, 1, .shortLastPage)
          else some (acc2, 1, .fullPageNoStart)

/-! ### `get_network_event_counts` (`project_logic.py:148-272`) -/

/-- One remote call, recorded so that "performs no network calls" is statable
about the model. -/
inductive ApiCall
  | listNetworksCall (productType : String)
  | getEventsCall (networkId : String)
deriving DecidableEq

/-- The body of the per-network `for` loop (`project_logic.py:180-270`): skip
networks with falsy ids, paginate, and — only when at least one raw event was
collected — install the folded day map under the network id
(`network_event_counts[network_id] = {}` followed by the event fold). -/
def processNetwork {DT : Type} (env : Env DT) (L : DTLib DT) (occAfter : DT) (fuel : Nat)
    (acc : Table × List ApiCall) (net : Network) : Option (Table × List ApiCall) :=
  match getId net with
  | none => some acc
  | some nid =>
    match paginateLoop (env.api nid) L occAfter fuel none [] with
    | none => none
    | some (evs, ncalls, _) =>
      let trace := acc.2 ++ List.replicate ncalls (.getEventsCall nid)
      if evs.isEmpty then some (acc.1, trace)
      else some (alSet nid (foldNetworkEvents L evs) acc.1, trace)

/-- The per-network `for` loop of `project_logic.py:180-270` over the whole
network list, threading the table and the call trace. -/
def runNets {DT : Type} (env : Env DT) (L : DTLib DT) (occAfter : DT) (fuel : Nat) :
    List Network → Table × List ApiCall → Option (Table × List ApiCall)
  | [], acc => some acc
  | net :: rest, acc =>
    match processNetwork env L occAfter fuel acc net with
    | none => none
    | some acc2 => runNets env L occAfter fuel rest acc2

/-- `ProjectLogic.get_network_event_counts` (`project_logic.py:148-272`). The
model returns the count table together with the trace of remote calls
performed; the result is `none` only when some network's pagination exceeded
`fuel` iterations. -/
def get_network_event_counts {DT : Type} (env : Env DT) (L : DTLib DT)
    (product_type : String) (selected_event_types : List String) (days_lookback : Int)
    (fuel : Nat) : Option (Table × List ApiCall) :=
  if ¬ env.dashboardAvailable then some ([], [])
  else if selected_event_types.isEmpty then some ([], [])
  else
    let occAfter := L.subDays env.now days_lookback
    let nets := list_networks env.transport product_type
    runNets env L occAfter fuel nets ([], [.listNetworksCall product_type])

/-! ### `get_filtered_event_types` (`project_logic.py:63-146`) -/

/-- A normalised event definition (`project_logic.py:120-126`). -/
structure EventDef where
  category : String
  type : String
  description : String
deriving DecidableEq

/-- The value `get_filtered_event_types` returns: the failure paths return the
two-element tuple `[], []` (both components always the empty list), while the
success path returns the bare list of definition dicts. -/
inductive CatalogResult
  | emptyPair
  | catalog (defs : List EventDef)
deriving DecidableEq

abbrev Triple := Option String × Option String × Option String

/-- Python `set.add` on `unique_event_types_set`: insert the triple if not
already present. The model fixes insertion order for the unordered `set`;
every property proved below is insensitive to that order. -/
def setAdd (t : Triple) (s : List Triple) : List Triple :=
  if t ∈ s then s else s ++ [t]

/-- The network fan-out of `project_logic.py:99-118`: visit each network,
skipping falsy ids and failing `getNetworkEventsEventTypes` calls, and
accumulate the `(category, type, description)` triples into the set. -/
def collectTriples {DT : Type} (env : Env DT) (nets : List Network) : List Triple :=
  nets.foldl (fun s net =>
    match getId net with
    | none => s
    | some nid =>
      match env.eventTypes nid with
      | .error _ => s
      | .ok evs => evs.foldl (fun s2 e => setAdd (e.category, e.type, e.description) s2) s) []

/-- The normalisation of `project_logic.py:120-126`: a triple becomes an
event-definition record, with sentinels `"Unknown"` / `"Unknown"` / `""` for
missing fields. -/
def normDef (t : Triple) : EventDef :=
  { category := t.1.getD "Unknown", type := t.2.1.getD "Unknown", description := t.2.2.getD "" }

/-- Code-point-lexicographic order on character lists: the comparison Python
performs between two `str` values. -/
def charsLT : List Char → List Char → Bool
  | [], [] => false
  | [], _ :: _ => true
  | _ :: _, [] => false
  | a :: as, b :: bs =>
    if a.toNat < b.toNat then true
    else if b.toNat < a.toNat then false
    else charsLT as bs

/-- Python's `<` on strings (code-point lexicographic). -/
def strLT (a b : String) : Bool := charsLT a.data b.data

/-- The sort order of `project_logic.py:131-134`: Python tuple comparison on
the key `(str(x.get('category', '')), str(x.get('type', '')))` — both keys are
always present on the constructed records, and `s1 <= s2` is `not (s2 < s1)`
for Python's total string order. -/
def edLE (a b : EventDef) : Bool :=
  strLT a.category b.category ||
    (a.category == b.category && !(strLT b.type a.type))

/-- `ProjectLogic.get_filtered_event_types` (`project_logic.py:63-146`).
`event_category = some c` models passing `event_category=c`; the guard
`if event_category:` is Python truthiness, so `none` and `some ""` both take
the unfiltered branch. The failure returns (`return [], []`) are
`CatalogResult.emptyPair`. Under the spec-modelled fail-soft `list_networks`
the two `except` arms around the catalog fetch (`project_logic.py:84-89`) are
unreachable, and a transport error surfaces as the empty network list. The
first sort of `project_logic.py:129` is dead code (overwritten by the sort on
the full key at `project_logic.py:131-134`). -/
def get_filtered_event_types {DT : Type} (env : Env DT) (product_type : String)
    (event_category : Option String) : CatalogResult :=
  if ¬ env.dashboardAvailable then .emptyPair
  else
    let nets := list_networks env.transport product_type
    if nets.isEmpty then .emptyPair
    else
      let sortedDefs := ((collectTriples env nets).map normDef).mergeSort edLE
      match event_category with
      | some c =>
        if c ≠ "" then .catalog (sortedDefs.filter (fun d => d.category == c))
        else .catalog sortedDefs
      | none => .catalog sortedDefs

/-- The spec's restriction operation on a catalog result: keep exactly the
entries whose `category` equals the filter string (case-sensitive). -/
def catFilter (c : String) : CatalogResult → CatalogResult
  | .emptyPair => .emptyPair
  | .catalog l => .catalog (l.filter (fun d => d.category == c))

/-! ### Association-list and fold lemmas -/

theorem alGet_alSet {α : Type} (k k' : String) (v : α) (l : List (String × α)) :
    alGet k (alSet k' v l) = if k' = k then some v else alGet k l := by
  induction l with
  | nil => by_cases h : k' = k <;> simp [alGet, alSet, h]
  | cons hd tl ih =>
    obtain ⟨k2, v2⟩ := hd
    by_cases h0 : k' = k
    · subst h0
      by_cases h1 : k2 = k' <;> simp_all [alGet, alSet]
    · by_cases h1 : k2 = k' <;> by_cases h2 : k2 = k <;> simp_all [alGet, alSet]

theorem cellOpt_foldStep_match {DT : Type} (L : DTLib DT) (dm : DayMap) (e : RawEvent)
    (d t : String) (h : countsAt L d t e = true) :
    cellOpt (foldStep L dm e) d t = some ((cellOpt dm d t).getD 0 + 1) := by
  have hc : eventCell L e = some (d, t) := by
    simpa [countsAt] using h
  unfold foldStep
  rw [hc]
  unfold cellOpt
  simp only [alGet_alSet, if_pos rfl, Option.bind_some]
  cases hdm : alGet d dm <;> simp [hdm, alGet_alSet, alGet]

theorem cellOpt_foldStep_nomatch {DT : Type} (L : DTLib DT) (dm : DayMap) (e : RawEvent)
    (d t : String) (h : countsAt L d t e = false) :
    cellOpt (foldStep L dm e) d t = cellOpt dm d t := by
  unfold foldStep
  cases hc : eventCell L e with
  | none => rfl
  | some p =>
    obtain ⟨d', t'⟩ := p
    have hne : ¬(d' = d ∧ t' = t) := by
      rintro ⟨rfl, rfl⟩
      simp [countsAt, hc] at h
    unfold cellOpt
    simp only [alGet_alSet]
    by_cases hd : d' = d
    · subst hd
      have ht : t' ≠ t := fun h2 => hne ⟨rfl, h2⟩
      simp only [if_pos rfl, Option.bind_some, alGet_alSet, if_neg ht]
      cases hdm : alGet d' dm <;> simp [hdm, alGet, alGet_alSet, ht]
    · simp [if_neg hd]

theorem cellOpt_foldl {DT : Type} (L : DTLib DT) (evs : List RawEvent) (d t : String) :
    ∀ dm : DayMap,
      cellOpt (evs.foldl (foldStep L) dm) d t =
        if (evs.filter (countsAt L d t)).length = 0 then cellOpt dm d t
        else some ((cellOpt dm d t).getD 0 + (evs.filter (countsAt L d t)).length) := by
  induction evs with
  | nil => intro dm; simp
  | cons e evs ih =>
    intro dm
    rw [List.foldl_cons, List.filter_cons]
    cases h : countsAt L d t e with
    | false =>
      simp only [h, Bool.false_eq_true, if_false]
      rw [ih, cellOpt_foldStep_nomatch L dm e d t h]
    | true =>
      simp only [h, if_true, List.length_cons]
      rw [ih (foldStep L dm e), cellOpt_foldStep_match L dm e d t h]
      by_cases hz : (evs.filter (countsAt L d t)).length = 0
      · simp [hz]
      · have h1 : ¬((evs.filter (countsAt L d t)).length + 1 = 0) := by omega
        simp only [hz, if_false, h1, Option.getD_some]
        congr 1
        omega

theorem cell_count {DT : Type} (L : DTLib DT) (evs : List RawEvent) (d t : String) :
    cellOpt (foldNetworkEvents L evs) d t =
      if (evs.filter (countsAt L d t)).length = 0 then none
      else some ((evs.filter (countsAt L d t)).length) := by
  unfold foldNetworkEvents
  rw [cellOpt_foldl]
  have h0 : cellOpt [] d t = none := rfl
  rw [h0]
  by_cases hz : (evs.filter (countsAt L d t)).length = 0 <;> simp [hz]

/-! ### Structural lemmas about the per-network loop -/

theorem runNets_entry {DT : Type} (env : Env DT) (L : DTLib DT) (occ : DT) (fuel : Nat)
    (nets : List Network) :
    ∀ (acc : Table × List ApiCall) (tbl : Table) (tr : List ApiCall),
      runNets env L occ fuel nets acc = some (tbl, tr) →
      ∀ nid dm, alGet nid tbl = some dm →
        alGet nid acc.1 = some dm ∨
        ∃ net ∈ nets, ∃ evs n r, getId net = some nid ∧
          paginateLoop (env.api nid) L occ fuel none [] = some (evs, n, r) ∧
          evs ≠ [] ∧ dm = foldNetworkEvents L evs := by
  induction nets with
  | nil =>
    intro acc tbl tr h nid dm hdm
    simp only [runNets] at h
    obtain ⟨h1, h2⟩ := Prod.mk.injEq .. ▸ Option.some.inj h
    subst h1
    exact .inl hdm
  | cons net rest ih =>
    intro acc tbl tr h nid dm hdm
    simp only [runNets] at h
    cases hp : processNetwork env L occ fuel acc net with
    | none => rw [hp] at h; cases h
    | some acc2 =>
      rw [hp] at h
      rcases ih acc2 tbl tr h nid dm hdm with hacc2 | ⟨net2, hmem, rest2⟩
      · cases hgid : getId net with
        | none =>
          simp only [processNetwork, hgid] at hp
          cases hp
          exact .inl hacc2
        | some nid' =>
          cases hpag : paginateLoop (env.api nid') L occ fuel none [] with
          | none =>
            simp only [processNetwork, hgid, hpag] at hp
            exact Option.noConfusion hp
          | some res =>
            obtain ⟨evs, n, r⟩ := res
            simp only [processNetwork, hgid, hpag] at hp
            by_cases hemp : evs.isEmpty
            · simp only [hemp, if_true] at hp
              cases hp
              exact .inl hacc2
            · simp only [hemp, if_false, Bool.false_eq_true] at hp
              cases hp
              simp only [alGet_alSet] at hacc2
              by_cases hnn : nid' = nid
              · subst hnn
                rw [if_pos rfl] at hacc2
                right
                refine ⟨net, List.mem_cons_self net rest, evs, n, r, hgid, hpag, ?_, ?_⟩
                · simpa [List.isEmpty_iff] using hemp
                · exact (Option.some.inj hacc2).symm
              · rw [if_neg hnn] at hacc2
                exact .inl hacc2
      · exact .inr ⟨net2, List.mem_cons_of_mem net hmem, rest2⟩

theorem runNets_trace_mono {DT : Type} (env : Env DT) (L : DTLib DT) (occ : DT) (fuel : Nat)
    (nets : List Network) :
    ∀ (acc : Table × List ApiCall) (tbl : Table) (tr : List ApiCall),
      runNets env L occ fuel nets acc = some (tbl, tr) →
      ∀ c ∈ acc.2, c ∈ tr := by
  induction nets with
  | nil =>
    intro acc tbl tr h c hc
    simp only [runNets] at h
    obtain ⟨h1, h2⟩ := Prod.mk.injEq .. ▸ Option.some.inj h
    subst h2
    exact hc
  | cons net rest ih =>
    intro acc tbl tr h c hc
    simp only [runNets] at h
    cases hp : processNetwork env L occ fuel acc net with
    | none => rw [hp] at h; cases h
    | some acc2 =>
      rw [hp] at h
      refine ih acc2 tbl tr h c ?_
      cases hgid : getId net with
      | none => simp only [processNetwork, hgid] at hp; cases hp; exact hc
      | some nid' =>
        cases hpag : paginateLoop (env.api nid') L occ fuel none [] with
        | none =>
          simp only [processNetwork, hgid, hpag] at hp
          exact Option.noConfusion hp
        | some res =>
          obtain ⟨evs, n, r⟩ := res
          simp only [processNetwork, hgid, hpag] at hp
          by_cases hemp : evs.isEmpty
          · simp only [hemp, if_true] at hp
            cases hp
            exact List.mem_append_left _ hc
          · simp only [hemp, if_false, Bool.false_eq_true] at hp
            cases hp
            exact List.mem_append_left _ hc

theorem run_table_shape {DT : Type} (env : Env DT) (L : DTLib DT) (pt : String)
    (sel : List String) (days : Int) (fuel : Nat) (tbl : Table) (tr : List ApiCall)
    (h : get_network_event_counts env L pt sel days fuel = some (tbl, tr)) :
    ∀ nid dm, alGet nid tbl = some dm →
      ∃ net ∈ list_networks env.transport pt, ∃ evs n r,
        getId net = some nid ∧
        paginateLoop (env.api nid) L (L.subDays env.now days) fuel none [] = some (evs, n, r) ∧
        evs ≠ [] ∧ dm = foldNetworkEvents L evs := by
  intro nid dm hdm
  unfold get_network_event_counts at h
  by_cases hd : env.dashboardAvailable
  · simp only [hd, not_true, if_false, if_neg] at h
    by_cases hs : sel.isEmpty
    · simp only [hs, if_true] at h
      cases h
      exact absurd hdm (by simp [alGet])
    · simp only [hs, if_false, Bool.false_eq_true] at h
      rcases runNets_entry env L (L.subDays env.now days) fuel
        (list_networks env.transport pt) _ tbl tr h nid dm hdm with h1 | h2
      · exact absurd h1 (by simp [alGet])
      · exact h2
  · simp only [hd, not_false_iff, if_true] at h
    cases h
    exact absurd hdm (by simp [alGet])

/-! ### Order lemmas for the catalog sort key -/

theorem charsLT_irrefl : ∀ l : List Char, charsLT l l = false
  | [] => rfl
  | a :: as => by simp [charsLT, charsLT_irrefl as]

theorem charsLT_trans (x : List Char) : ∀ y z : List Char,
    charsLT x y = true → charsLT y z = true → charsLT x z = true := by
  induction x with
  | nil =>
    intro y z hxy hyz
    cases y with
    | nil => simp [charsLT] at hxy
    | cons b bs =>
      cases z with
      | nil => simp [charsLT] at hyz
      | cons c cs => simp [charsLT]
  | cons a as ih =>
    intro y z hxy hyz
    cases y with
    | nil => simp [charsLT] at hxy
    | cons b bs =>
      cases z with
      | nil => simp [charsLT] at hyz
      | cons c cs =>
        simp only [charsLT] at hxy hyz ⊢
        by_cases hab : a.toNat < b.toNat
        · by_cases hbc : b.toNat < c.toNat
          · have hac : a.toNat < c.toNat := hab.trans hbc
            simp [hac]
          · simp only [hbc, if_false] at hyz
            by_cases hcb : c.toNat < b.toNat
            · simp [hcb] at hyz
            · have hac : a.toNat < c.toNat := by omega
              simp [hac]
        · simp only [hab, if_false] at hxy
          by_cases hba : b.toNat < a.toNat
          · simp [hba] at hxy
          · simp only [hba, if_false] at hxy
            by_cases hbc : b.toNat < c.toNat
            · have hac : a.toNat < c.toNat := by omega
              simp [hac]
            · simp only [hbc, if_false] at hyz
              by_cases hcb : c.toNat < b.toNat
              · simp [hcb] at hyz
              · simp only [hcb, if_false] at hyz
                have h1 : ¬ a.toNat < c.toNat := by omega
                have h2 : ¬ c.toNat < a.toNat := by omega
                simp only [h1, h2, if_false]
                exact ih bs cs hxy hyz

theorem charsLT_conn (x : List Char) : ∀ y : List Char,
    charsLT x y = false → charsLT y x = false → x = y := by
  induction x with
  | nil =>
    intro y hxy hyx
    cases y with
    | nil => rfl
    | cons b bs => simp [charsLT] at hxy
  | cons a as ih =>
    intro y hxy hyx
    cases y with
    | nil => simp [charsLT] at hyx
    | cons b bs =>
      simp only [charsLT] at hxy hyx
      by_cases hab : a.toNat < b.toNat
      · simp [hab] at hxy
      · by_cases hba : b.toNat < a.toNat
        · simp [hba] at hyx
        · simp only [hab, hba, if_false] at hxy hyx
          have hn : a.toNat = b.toNat := by omega
          have hc : a = b := Char.ext (UInt32.ext hn)
          rw [hc, ih bs hxy hyx]

theorem strLT_irrefl (a : String) : strLT a a = false := charsLT_irrefl a.data

theorem strLT_trans {a b c : String} (h1 : strLT a b = true) (h2 : strLT b c = true) :
    strLT a c = true := charsLT_trans _ _ _ h1 h2

theorem strLT_conn {a b : String} (h1 : strLT a b = false) (h2 : strLT b a = false) :
    a = b := by
  have h := charsLT_conn a.data b.data h1 h2
  cases a
  cases b
  exact congrArg String.mk (by simpa using h)

theorem strLT_asymm {a b : String} (h1 : strLT a b = true) : strLT b a = false := by
  by_contra h
  rw [Bool.not_eq_false] at h
  have h2 := strLT_trans h1 h
  rw [strLT_irrefl] at h2
  cases h2

theorem edLE_trans : ∀ a b c : EventDef, edLE a b = true → edLE b c = true →
    edLE a c = true := by
  intro a b c hab hbc
  simp only [edLE, Bool.or_eq_true, Bool.and_eq_true, Bool.not_eq_eq_eq_not, Bool.not_true,
    beq_iff_eq] at *
  rcases hab with h1 | ⟨h1, h2⟩ <;> rcases hbc with h3 | ⟨h3, h4⟩
  · exact .inl (strLT_trans h1 h3)
  · exact .inl (h3 ▸ h1)
  · exact .inl (h1 ▸ h3)
  · refine .inr ⟨h1.trans h3, ?_⟩
    by_cases hca : strLT c.type a.type = true
    · exfalso
      by_cases hbcb : strLT b.type c.type = true
      · have hh := strLT_trans hbcb hca
        simp [h2] at hh
      · rw [Bool.not_eq_true] at hbcb
        have hbceq : b.type = c.type := strLT_conn hbcb h4
        rw [← hbceq] at hca
        simp [h2] at hca
    · rwa [Bool.not_eq_true] at hca

theorem edLE_total : ∀ a b : EventDef, (edLE a b || edLE b a) = true := by
  intro a b
  simp only [edLE, Bool.or_eq_true, Bool.and_eq_true, Bool.not_eq_eq_eq_not, Bool.not_true,
    beq_iff_eq]
  by_cases h1 : strLT a.category b.category = true
  · exact .inl (.inl h1)
  · by_cases h2 : strLT b.category a.category = true
    · exact .inr (.inl h2)
    · rw [Bool.not_eq_true] at h1 h2
      have he : a.category = b.category := strLT_conn h1 h2
      by_cases h3 : strLT b.type a.type = true
      · exact .inr (.inr ⟨he.symm, strLT_asymm h3⟩)
      · rw [Bool.not_eq_true] at h3
        exact .inl (.inr ⟨he, h3⟩)

/-! ### Nodup of the triple set -/

theorem setAdd_nodup {t : Triple} {s : List Triple} (h : s.Nodup) : (setAdd t s).Nodup := by
  unfold setAdd
  by_cases hm : t ∈ s
  · simpa [hm] using h
  · simp only [hm, if_false]
    simp [List.nodup_append, h, hm]

theorem foldl_setAdd_nodup (evs : List EvTypeRec) :
    ∀ s : List Triple, s.Nodup →
      (evs.foldl (fun s2 e => setAdd (e.category, e.type, e.description) s2) s).Nodup := by
  induction evs with
  | nil => intro s h; exact h
  | cons e evs ih => intro s h; exact ih _ (setAdd_nodup h)

theorem collectTriples_nodup {DT : Type} (env : Env DT) (nets : List Network) :
    (collectTriples env nets).Nodup := by
  unfold collectTriples
  suffices h : ∀ s : List Triple, s.Nodup →
      (nets.foldl (fun s net =>
        match getId net with
        | none => s
        | some nid =>
          match env.eventTypes nid with
          | .error _ => s
          | .ok evs => evs.foldl (fun s2 e => setAdd (e.category, e.type, e.description) s2) s)
        s).Nodup by
    exact h [] List.nodup_nil
  induction nets with
  | nil => intro s h; exact h
  | cons net nets ih =>
    intro s h
    simp only [List.foldl_cons]
    apply ih
    cases hg : getId net with
    | none => simpa [hg] using h
    | some nid =>
      cases he : env.eventTypes nid with
      | error e => simpa [hg, he] using h
      | ok evs =>
        simp only [hg, he]
        exact foldl_setAdd_nodup evs s h

/-! ### Concrete fixtures for the witness runs -/

/-- A tiny concrete instance of the `datetime` collaborator over `Nat`
timestamps used by the witness runs: a fixed handful of timestamp strings
parse (the hundreds digit being the calendar day), everything else raises
`ValueError`. -/
def natDT : DTLib Nat where
  fromiso s :=
    alGet s [("90", 90), ("101", 101), ("105", 105), ("150", 150), ("200", 200),
      ("230", 230), ("250", 250)]
  dayStr n := if n < 100 then "0" else if n < 200 then "1" else if n < 300 then "2" else "big"
  le a b := a ≤ b
  subDays now d := now - d.toNat * 100

/-- A short page: two parseable events on the same calendar day at different
times, plus a sibling whose `occurredAt` does not parse. -/
def pageW : Page :=
  ⟨[RawEvent.record (some "101") (some "wpa"), RawEvent.record (some "105") (some "wpa"),
    RawEvent.record (some "bad") (some "wpa")], none⟩

/-- A healthy environment with one network and a two-entry event-type
catalog. -/
def envW : Env Nat where
  dashboardAvailable := true
  transport := fun _ => .ok [⟨some "N1", "net one"⟩]
  eventTypes := fun _ => .ok [⟨some "A", some "t1", some "d1"⟩, ⟨some "B", some "t0", some "d0"⟩]
  api := fun _ _ => .ok pageW
  now := 800

/-- A page whose single collected event is invalid (its `'type'` key is
missing). -/
def pageBad : Page := ⟨[RawEvent.record (some "x") none], none⟩

/-- An environment whose one network collects only invalid events. -/
def envBad : Env Nat where
  dashboardAvailable := true
  transport := fun _ => .ok [⟨some "N1", "n"⟩]
  eventTypes := fun _ => .ok []
  api := fun _ _ => .ok pageBad
  now := 800

/-- An environment whose network-catalog transport raises. -/
def envErr : Env Nat where
  dashboardAvailable := true
  transport := fun _ => .error "connection failure"
  eventTypes := fun _ => .ok []
  api := fun _ _ => .error "x"
  now := 800

/-- A full page (1000 events) with no `pageStartAt` in the response. -/
def fullPageW : Page := ⟨List.replicate 1000 (RawEvent.record (some "101") (some "wpa")), none⟩

/-- A first page pointing at an earlier cursor, still inside the window. -/
def pageB : Page := ⟨[RawEvent.record (some "250") (some "wpa")], some "200"⟩

/-- Two networks; the first network's second pagination call raises, the
second network paginates normally. -/
def envC4 : Env Nat where
  dashboardAvailable := true
  transport := fun _ => .ok [⟨some "A1", "a"⟩, ⟨some "B2", "b"⟩]
  eventTypes := fun _ => .ok []
  api := fun nid cursor =>
    if nid = "A1" then
      match cursor with
      | none => .ok pageB
      | some _ => .error "boom"
    else .ok pageW
  now := 800

/-- An environment with an empty network catalog. -/
def envNoNets : Env Nat where
  dashboardAvailable := true
  transport := fun _ => .ok []
  eventTypes := fun _ => .ok []
  api := fun _ _ => .error "x"
  now := 0

/-! ### The claims -/

/-- C1: for every network id present in a table returned by
`get_network_event_counts`, the entry is exactly the fold of the raw events
its pagination collected, and each count cell `tbl[nid][d][t]` equals the
number of collected events that are dicts with both `'occurredAt'` and
`'type'`, whose timestamp parses and truncates to day `d`, and whose type is
`t` (`countsAt`); a cell is absent exactly when that number is zero, so
malformed or unparseable events are skipped without disturbing the counts of
their valid siblings. -/
theorem fold_counts_collected_events {DT : Type} (env : Env DT) (L : DTLib DT)
    (pt : String) (sel : List String) (days : Int) (fuel : Nat) (tbl : Table)
    (tr : List ApiCall) (nid : String) (dm : DayMap)
    (h : get_network_event_counts env L pt sel days fuel = some (tbl, tr))
    (hdm : alGet nid tbl = some dm) :
    ∃ net ∈ list_networks env.transport pt, ∃ evs n r,
      getId net = some nid ∧
      paginateLoop (env.api nid) L (L.subDays env.now days) fuel none [] = some (evs, n, r) ∧
      evs ≠ [] ∧ dm = foldNetworkEvents L evs ∧
      ∀ d t, cellOpt dm d t =
        if (evs.filter (countsAt L d t)).length = 0 then none
        else some ((evs.filter (countsAt L d t)).length) := by
  obtain ⟨net, hmem, evs, n, r, hgid, hpag, hne, hdm2⟩ :=
    run_table_shape env L pt sel days fuel tbl tr h nid dm hdm
  exact ⟨net, hmem, evs, n, r, hgid, hpag, hne, hdm2,
    fun d t => hdm2 ▸ cell_count L evs d t⟩

/-- Witness for C1 on a concrete run: the network's page holds two events of
type `"wpa"` on the same calendar day (timestamps `101` and `105`) and one
sibling with an unparseable timestamp; the resulting cell count is 2 and the
sibling aborts nothing. -/
theorem fold_counts_collected_events_witness :
    (get_network_event_counts envW natDT "wireless" ["wpa"] 7 2 =
      some ([("N1", [("1", [("wpa", 2)])])],
        [ApiCall.listNetworksCall "wireless", ApiCall.getEventsCall "N1"])) ∧
    (alGet "N1" [("N1", [("1", [("wpa", 2)])])] = some [("1", [("wpa", 2)])]) ∧
    (∃ net ∈ list_networks envW.transport "wireless", ∃ evs n r,
      getId net = some "N1" ∧
      paginateLoop (envW.api "N1") natDT (natDT.subDays envW.now 7) 2 none [] =
        some (evs, n, r) ∧
      evs ≠ [] ∧ ([("1", [("wpa", 2)])] : DayMap) = foldNetworkEvents natDT evs ∧
      ∀ d t, cellOpt [("1", [("wpa", 2)])] d t =
        if (evs.filter (countsAt natDT d t)).length = 0 then none
        else some ((evs.filter (countsAt natDT d t)).length)) :=
  ⟨by rfl, rfl, fold_counts_collected_events envW natDT "wireless" ["wpa"] 7 2
    [("N1", [("1", [("wpa", 2)])])]
    [ApiCall.listNetworksCall "wireless", ApiCall.getEventsCall "N1"] "N1"
    [("1", [("wpa", 2)])] (by rfl) (by rfl)⟩

/-- C2: the pagination loop stops after exactly one call when the response
carries no `pageStartAt` — on a full page (1000 events) it breaks on the
defensive warning branch (`StopReason.fullPageNoStart`, the branch that logs
the warning of `project_logic.py:227`), and on a shorter non-empty page it
breaks on the last-page branch (`StopReason.shortLastPage`); in both cases the
loop terminates whatever the API would have answered next. -/
theorem pagination_stops_when_pageStartAt_missing {DT : Type} (L : DTLib DT) (occ : DT)
    (apiP apiQ : Option String → Except String Page) (p q : Page) (fuel : Nat)
    (hapiP : apiP none = .ok p) (hpsP : p.pageStartAt = none) (hlenP : p.events.length = 1000)
    (hapiQ : apiQ none = .ok q) (hpsQ : q.pageStartAt = none)
    (hq1 : q.events ≠ []) (hq2 : q.events.length < 1000) :
    paginateLoop apiP L occ (fuel + 1) none [] = some (p.events, 1, .fullPageNoStart) ∧
    paginateLoop apiQ L occ (fuel + 1) none [] = some (q.events, 1, .shortLastPage) := by
  constructor
  · have hne : ¬ p.events.isEmpty := by
      rw [List.isEmpty_iff]
      intro hnil
      rw [hnil] at hlenP
      simp at hlenP
    simp only [paginateLoop, hapiP, hne, hpsP, hlenP, if_false, Bool.false_eq_true,
      List.nil_append]
    norm_num
  · have hne : ¬ q.events.isEmpty := by
      rw [List.isEmpty_iff]
      exact hq1
    simp only [paginateLoop, hapiQ, hne, hpsQ, hq2, if_true, if_false, Bool.false_eq_true,
      List.nil_append]

/-- Witness for C2: a constant API returning a full page without `pageStartAt`
stops after one call with the warning branch, and one returning a three-event
page without `pageStartAt` stops after one call as the last page. -/
theorem pagination_stops_when_pageStartAt_missing_witness :
    ((fun (_ : Option String) => (.ok fullPageW : Except String Page)) none = .ok fullPageW ∧
     fullPageW.pageStartAt = none ∧ fullPageW.events.length = 1000 ∧
     (fun (_ : Option String) => (.ok pageW : Except String Page)) none = .ok pageW ∧
     pageW.pageStartAt = none ∧ pageW.events ≠ [] ∧ pageW.events.length < 1000) ∧
    (paginateLoop (fun (_ : Option String) => (.ok fullPageW : Except String Page))
        natDT 100 (0 + 1) none [] = some (fullPageW.events, 1, .fullPageNoStart) ∧
     paginateLoop (fun (_ : Option String) => (.ok pageW : Except String Page))
        natDT 100 (0 + 1) none [] = some (pageW.events, 1, .shortLastPage)) :=
  ⟨⟨rfl, rfl, by simp only [fullPageW, List.length_replicate], rfl, rfl, by decide, by decide⟩,
    pagination_stops_when_pageStartAt_missing natDT 100 _ _ fullPageW pageW 0
      rfl rfl (by simp only [fullPageW, List.length_replicate]) rfl rfl (by decide) (by decide)⟩

/-- C3 (amended): in every table returned by `get_network_event_counts`, every
count stored at a `(network, day, event_type)` leaf is at least 1, and a
network id appears as a top-level key only if its pagination collected at
least one *raw* event. The original claim's stronger condition — at least one
*valid* event, with all-invalid networks absent — fails: see the
counterexample, where an all-invalid network is present mapped to an empty day
map. -/
theorem counts_positive_and_networks_from_collected {DT : Type} (env : Env DT) (L : DTLib DT)
    (pt : String) (sel : List String) (days : Int) (fuel : Nat) (tbl : Table) (tr : List ApiCall)
    (h : get_network_event_counts env L pt sel days fuel = some (tbl, tr)) :
    (∀ nid dm, alGet nid tbl = some dm → ∀ d tm, alGet d dm = some tm →
      ∀ t c, alGet t tm = some c → 1 ≤ c) ∧
    (∀ nid dm, alGet nid tbl = some dm →
      ∃ net ∈ list_networks env.transport pt, ∃ evs n r, getId net = some nid ∧
        paginateLoop (env.api nid) L (L.subDays env.now days) fuel none [] = some (evs, n, r) ∧
        evs ≠ []) := by
  constructor
  · intro nid dm hdm d tm htm t c hc
    obtain ⟨net, hmem, evs, n, r, hgid, hpag, hne, hdm2⟩ :=
      run_table_shape env L pt sel days fuel tbl tr h nid dm hdm
    have hcell : cellOpt dm d t = some c := by
      simp [cellOpt, htm, hc]
    rw [hdm2, cell_count] at hcell
    by_cases hz : (evs.filter (countsAt L d t)).length = 0
    · rw [if_pos hz] at hcell; cases hcell
    · rw [if_neg hz] at hcell
      have hcv := Option.some.inj hcell
      omega
  · intro nid dm hdm
    obtain ⟨net, hmem, evs, n, r, hgid, hpag, hne, _⟩ :=
      run_table_shape env L pt sel days fuel tbl tr h nid dm hdm
    exact ⟨net, hmem, evs, n, r, hgid, hpag, hne⟩

/-- Counterexample to C3 as stated: a network whose only collected event is
invalid (its `'type'` key is missing, so zero valid events fold) is *not*
absent from the output — it is present as an empty placeholder entry
`{"N1": {}}`, because `network_event_counts[network_id] = {}` is installed
whenever the collected raw list is non-empty (`project_logic.py:242-244`). -/
theorem empty_placeholder_for_all_invalid_events :
    get_network_event_counts envBad natDT "pt" ["e"] 7 2 =
      some ([("N1", [])], [ApiCall.listNetworksCall "pt", ApiCall.getEventsCall "N1"]) ∧
    (pageBad.events.filter (fun e => (eventCell natDT e).isSome)).length = 0 ∧
    alGet "N1" [(("N1" : String), ([] : DayMap))] ≠ none := by
  refine ⟨rfl, rfl, ?_⟩
  simp [alGet]

/-- Witness for C3 (amended) on a concrete run. -/
theorem counts_positive_witness :
    (get_network_event_counts envW natDT "wireless" ["wpa"] 7 2 =
      some ([("N1", [("1", [("wpa", 2)])])],
        [ApiCall.listNetworksCall "wireless", ApiCall.getEventsCall "N1"])) ∧
    ((∀ nid dm, alGet nid [("N1", [("1", [("wpa", 2)])])] = some dm →
        ∀ d tm, alGet d dm = some tm → ∀ t c, alGet t tm = some c → 1 ≤ c) ∧
     (∀ nid dm, alGet nid [("N1", [("1", [("wpa", 2)])])] = some dm →
        ∃ net ∈ list_networks envW.transport "wireless", ∃ evs n r, getId net = some nid ∧
          paginateLoop (envW.api nid) natDT (natDT.subDays envW.now 7) 2 none [] =
            some (evs, n, r) ∧ evs ≠ [])) :=
  ⟨by rfl, counts_positive_and_networks_from_collected envW natDT "wireless" ["wpa"] 7 2
    [("N1", [("1", [("wpa", 2)])])]
    [ApiCall.listNetworksCall "wireless", ApiCall.getEventsCall "N1"] (by rfl)⟩

/-- C4: an error raised during a pagination iteration stops pagination for
that network only. With a first network whose first page succeeds (cursor
advancing past the window bound) and whose second call raises, the run keeps
and folds the first network's already-accumulated page into the result, and
the second network is still processed: its fold appears in the table whenever
it collected events. -/
theorem pagination_error_keeps_pages_and_other_networks {DT : Type} (env : Env DT)
    (L : DTLib DT) (pt : String) (sel : List String) (days : Int) (fuel : Nat)
    (n1 n2 : Network) (nid1 nid2 : String) (p : Page) (s err : String) (dt1 : DT)
    (evs2 : List RawEvent) (c2 : Nat) (r2 : StopReason)
    (hd : env.dashboardAvailable = true) (hs : ¬ sel.isEmpty)
    (hnets : list_networks env.transport pt = [n1, n2])
    (hid1 : getId n1 = some nid1) (hid2 : getId n2 = some nid2) (hne : nid1 ≠ nid2)
    (hapi1 : env.api nid1 none = .ok p) (hpne : ¬ p.events.isEmpty)
    (hps : p.pageStartAt = some s) (hparse : L.fromiso s = some dt1)
    (hgt : L.le dt1 (L.subDays env.now days) = false)
    (hapi2 : env.api nid1 (some s) = .error err)
    (hpag2 : paginateLoop (env.api nid2) L (L.subDays env.now days) (fuel + 2) none [] =
      some (evs2, c2, r2)) :
    ∃ tbl tr, get_network_event_counts env L pt sel days (fuel + 2) = some (tbl, tr) ∧
      alGet nid1 tbl = some (foldNetworkEvents L p.events) ∧
      (evs2 = [] → alGet nid2 tbl = none) ∧
      (evs2 ≠ [] → alGet nid2 tbl = some (foldNetworkEvents L evs2)) := by
  have hpag1 : paginateLoop (env.api nid1) L (L.subDays env.now days) (fuel + 2) none [] =
      some (p.events, 2, .apiError) := by
    show paginateLoop (env.api nid1) L (L.subDays env.now days) ((fuel + 1) + 1) none [] = _
    simp only [paginateLoop, hapi1, hpne, hps, hparse, hgt, if_false, Bool.false_eq_true,
      List.nil_append, hapi2]
  unfold get_network_event_counts
  simp only [hd, not_true, if_false, hs, hnets, Bool.false_eq_true]
  simp only [runNets, processNetwork, hid1, hpag1, hpne, if_false, Bool.false_eq_true,
    hid2, hpag2]
  by_cases hemp : evs2.isEmpty
  · simp only [hemp, if_true]
    refine ⟨_, _, rfl, ?_, ?_, ?_⟩
    · simp [alGet_alSet]
    · intro h2
      simp [alGet_alSet, hne, alGet]
    · intro h2
      rw [List.isEmpty_iff] at hemp
      exact absurd hemp h2
  · simp only [hemp, if_false, Bool.false_eq_true]
    refine ⟨_, _, rfl, ?_, ?_, ?_⟩
    · simp [alGet_alSet, Ne.symm hne]
    · intro h2
      rw [List.isEmpty_iff] at hemp
      exact absurd h2 hemp
    · intro h2
      simp [alGet_alSet]

/-- Witness for C4 on a concrete run: network `A1` loses its second page to an
API error but keeps its first page in the result; network `B2` is still
processed and folded. -/
theorem pagination_error_keeps_pages_witness :
    ∃ tbl tr, get_network_event_counts envC4 natDT "wireless" ["wpa"] 7 (0 + 2) =
        some (tbl, tr) ∧
      alGet "A1" tbl = some (foldNetworkEvents natDT pageB.events) ∧
      (pageW.events = [] → alGet "B2" tbl = none) ∧
      (pageW.events ≠ [] → alGet "B2" tbl = some (foldNetworkEvents natDT pageW.events)) :=
  pagination_error_keeps_pages_and_other_networks envC4 natDT "wireless" ["wpa"] 7 0
    ⟨some "A1", "a"⟩ ⟨some "B2", "b"⟩ "A1" "B2" pageB "200" "boom" 200 pageW.events 1
    .shortLastPage rfl (by decide) (by rfl) (by rfl) (by rfl) (by decide) rfl (by decide)
    rfl (by rfl) (by rfl) rfl (by rfl)

/-- C5: when the network-catalog fetch fails, `get_network_event_counts`
returns the empty table instead of propagating an exception. The accessor is
the spec-modelled fail-soft `list_networks` (its code is outside the source
tree), under which the model's whole pipeline is exception-free: the only
non-value outcome of the embedding is fuel exhaustion, never a raised
error. -/
theorem catalog_failure_returns_empty_table {DT : Type} (env : Env DT) (L : DTLib DT)
    (pt : String) (sel : List String) (days : Int) (fuel : Nat) (e : String)
    (hd : env.dashboardAvailable = true) (hs : ¬ sel.isEmpty)
    (herr : env.transport pt = .error e) :
    get_network_event_counts env L pt sel days fuel =
      some ([], [ApiCall.listNetworksCall pt]) := by
  unfold get_network_event_counts
  simp only [hd, not_true, if_false, hs, list_networks, herr]
  simp [runNets]

/-- Witness for C5 on a concrete run with a failing transport. -/
theorem catalog_failure_witness :
    (envErr.dashboardAvailable = true ∧ ¬ (["wpa"] : List String).isEmpty ∧
      envErr.transport "wireless" = .error "connection failure") ∧
    get_network_event_counts envErr natDT "wireless" ["wpa"] 7 2 =
      some ([], [ApiCall.listNetworksCall "wireless"]) :=
  ⟨⟨rfl, by decide, rfl⟩,
    catalog_failure_returns_empty_table envErr natDT "wireless" ["wpa"] 7 2
      "connection failure" rfl (by decide) rfl⟩

/-- C6: for every environment, product type and lookback, calling
`get_network_event_counts` with an empty `selected_event_types` returns the
empty table immediately with an empty call trace — no `list_networks` call and
no `getNetworkEvents` call is performed. -/
theorem empty_selection_short_circuits {DT : Type} (env : Env DT) (L : DTLib DT)
    (pt : String) (days : Int) (fuel : Nat) :
    get_network_event_counts env L pt [] days fuel = some ([], []) := by
  unfold get_network_event_counts
  by_cases hd : env.dashboardAvailable <;> simp [hd]

/-- C7 (amended): `get_network_event_counts` performs no range validation on
`days_lookback`. For every value outside `[1, 90]` (dashboard available,
non-empty selection) the call does not short-circuit: it proceeds into the
pipeline with the out-of-range value and performs the network-catalog I/O —
the `list_networks` call is in the trace of every completed run. -/
theorem out_of_range_lookback_not_validated {DT : Type} (env : Env DT) (L : DTLib DT)
    (pt : String) (sel : List String) (days : Int) (fuel : Nat) (tbl : Table) (tr : List ApiCall)
    (hd : env.dashboardAvailable = true) (hs : ¬ sel.isEmpty)
    (hrange : days < 1 ∨ 90 < days)
    (h : get_network_event_counts env L pt sel days fuel = some (tbl, tr)) :
    ApiCall.listNetworksCall pt ∈ tr := by
  unfold get_network_event_counts at h
  simp only [hd, not_true, if_false, hs] at h
  exact runNets_trace_mono env L (L.subDays env.now days) fuel
    (list_networks env.transport pt) _ tbl tr h _ (by simp)

/-- Counterexample to C7 as stated: with `days_lookback = 0` (outside
`[1, 90]`) the call does not short-circuit before I/O — it performs the
`list_networks` call and a `getNetworkEvents` call and returns a populated
table. -/
theorem out_of_range_lookback_performs_io :
    get_network_event_counts envW natDT "wireless" ["wpa"] 0 2 =
      some ([("N1", [("1", [("wpa", 2)])])],
        [ApiCall.listNetworksCall "wireless", ApiCall.getEventsCall "N1"]) ∧
    ApiCall.listNetworksCall "wireless" ∈
      [ApiCall.listNetworksCall "wireless", ApiCall.getEventsCall "N1"] := by
  refine ⟨by rfl, ?_⟩
  simp

/-- Witness for C7 (amended) on the same concrete run. -/
theorem out_of_range_lookback_witness :
    ((0 : Int) < 1 ∨ (90 : Int) < 0) ∧
    ApiCall.listNetworksCall "wireless" ∈
      [ApiCall.listNetworksCall "wireless", ApiCall.getEventsCall "N1"] :=
  ⟨by decide,
    out_of_range_lookback_not_validated envW natDT "wireless" ["wpa"] 0 2
      [("N1", [("1", [("wpa", 2)])])]
      [ApiCall.listNetworksCall "wireless", ApiCall.getEventsCall "N1"]
      rfl (by decide) (by decide) (by rfl)⟩

/-- C8 (amended): for every *non-empty* supplied `category_filter`, the
filtered call equals the unfiltered call restricted to the entries whose
`category` equals the filter exactly (case-sensitive). The original claim also
covered the empty string, but `if event_category:` is Python truthiness, so an
empty-string filter is treated as absent and returns the full catalog — see
the counterexample. -/
theorem filtered_equals_restriction {DT : Type} (env : Env DT) (pt c : String)
    (hc : c ≠ "") :
    get_filtered_event_types env pt (some c) =
      catFilter c (get_filtered_event_types env pt none) := by
  unfold get_filtered_event_types
  by_cases hd : env.dashboardAvailable
  · simp only [hd, not_true, if_false]
    by_cases hn : (list_networks env.transport pt).isEmpty
    · simp [hn, catFilter]
    · simp [hn, hc, catFilter]
  · simp [hd, catFilter]

unseal List.merge List.mergeSort in
/-- Counterexample to C8 as stated for the empty string: against `envW` the
call with filter `""` returns the full two-entry catalog, while the
restriction of the unfiltered result to `category = ""` is empty. -/
theorem empty_string_filter_returns_full_catalog :
    get_filtered_event_types envW "wireless" (some "") =
      .catalog [⟨"A", "t1", "d1"⟩, ⟨"B", "t0", "d0"⟩] ∧
    catFilter "" (get_filtered_event_types envW "wireless" none) = .catalog [] ∧
    get_filtered_event_types envW "wireless" (some "") ≠
      catFilter "" (get_filtered_event_types envW "wireless" none) := by
  refine ⟨by rfl, by rfl, ?_⟩
  intro h
  rw [show catFilter "" (get_filtered_event_types envW "wireless" none) =
    .catalog [] from by rfl] at h
  rw [show get_filtered_event_types envW "wireless" (some "") =
    .catalog [⟨"A", "t1", "d1"⟩, ⟨"B", "t0", "d0"⟩] from by rfl] at h
  cases h

/-- Witness for C8 (amended) with the non-empty filter `"A"`. -/
theorem filtered_equals_restriction_witness :
    ("A" : String) ≠ "" ∧
    get_filtered_event_types envW "wireless" (some "A") =
      catFilter "A" (get_filtered_event_types envW "wireless" none) :=
  ⟨by decide, filtered_equals_restriction envW "wireless" "A" (by decide)⟩

/-- C9: every catalog returned by the unfiltered `get_filtered_event_types` is
sorted ascending by the Python key `(category, type)` (`edLE`), and is a
permutation of the normalisation of the de-duplicated triple set: the raw
`(category, type, description)` triples carry no duplicates, so two networks
reporting an identical triple contribute exactly one entry. -/
theorem catalog_sorted_and_deduplicated {DT : Type} (env : Env DT) (pt : String)
    (l : List EventDef)
    (h : get_filtered_event_types env pt none = .catalog l) :
    List.Pairwise (fun a b => edLE a b = true) l ∧
    (collectTriples env (list_networks env.transport pt)).Nodup ∧
    l.Perm ((collectTriples env (list_networks env.transport pt)).map normDef) := by
  have hl : l = ((collectTriples env (list_networks env.transport pt)).map normDef).mergeSort
      edLE := by
    unfold get_filtered_event_types at h
    by_cases hd : env.dashboardAvailable
    · simp only [hd, not_true, if_false] at h
      by_cases hn : (list_networks env.transport pt).isEmpty
      · simp [hn] at h
      · simp only [hn, if_false, Bool.false_eq_true] at h
        exact (CatalogResult.catalog.inj h).symm
    · simp [hd] at h
  subst hl
  exact ⟨List.sorted_mergeSort edLE_trans edLE_total _, collectTriples_nodup env _,
    List.mergeSort_perm _ _⟩

unseal List.merge List.mergeSort in
/-- Witness for C9 against `envW`, whose one network reports two event
definitions. -/
theorem catalog_sorted_witness :
    (get_filtered_event_types envW "wireless" none =
      .catalog [⟨"A", "t1", "d1"⟩, ⟨"B", "t0", "d0"⟩]) ∧
    (List.Pairwise (fun a b => edLE a b = true) [⟨"A", "t1", "d1"⟩, ⟨"B", "t0", "d0"⟩] ∧
     (collectTriples envW (list_networks envW.transport "wireless")).Nodup ∧
     List.Perm [⟨"A", "t1", "d1"⟩, ⟨"B", "t0", "d0"⟩]
       ((collectTriples envW (list_networks envW.transport "wireless")).map normDef)) :=
  ⟨by rfl, catalog_sorted_and_deduplicated envW "wireless"
    [⟨"A", "t1", "d1"⟩, ⟨"B", "t0", "d0"⟩] (by rfl)⟩

/-- C10: the failure paths of `get_filtered_event_types` (no matching
networks, and a failing transport) return the two-element tuple `([], [])` —
`CatalogResult.emptyPair` — which is a *different shape* from the flat list of
`EventDefinition` the success path returns, for every list (including the
empty one). The call raises no error, but the claim's "same result shape as
the non-empty success case" is false of the code as written. -/
theorem no_networks_returns_tuple_not_list :
    get_filtered_event_types envNoNets "wireless" none = .emptyPair ∧
    get_filtered_event_types envErr "wireless" none = .emptyPair ∧
    ∀ l : List EventDef, CatalogResult.emptyPair ≠ .catalog l := by
  refine ⟨rfl, rfl, ?_⟩
  intro l h
  cases h

end EventLog
